import Mathlib

/-!
Verification of the resolution core (`functions.py`): path splitting,
scope resolution, completion, goto, full resolution, result adapters,
and the request-level cache discipline.

The collaborators of the core (the parser, the evaluator, the import
resolver and the cursor module) are not part of the analysed slice; they
are modelled from the specification as an explicit per-request
environment (`Env`) and as value trees (`Entity` / `NameB`).  The core
logic itself — everything that lives in `functions.py` — is translated
function by function.
-/

namespace Jedi

/-! ## Characters and identifier runs

Python's `\w` (no re.U, as in the source's Python-2-era regex) is
`[a-zA-Z0-9_]`; `str.lower()` on such characters is ASCII lowercasing. -/

/-- A word character as matched by the source regex classes `\w` and `[\w\d]`. -/
def isWordChar (c : Char) : Bool := c.isAlpha || c.isDigit || c == '_'

/-- Model of Python `str.lower()` (ASCII is all the source compares). -/
def lowerStr (s : List Char) : List Char := s.map Char.toLower

/-! ## The path splitter `_get_completion_parts`

Source: `re.match(r'^(.*?)(\.|)(\w?[\w\d]*)$', path, flags=re.S).groups()`.

Matching semantics of that pattern, which the definition below embeds:
group 1 is lazy (shortest prefix wins), the alternation `(\.|)` prefers
the dot, group 3 is a (possibly empty) run of word characters, and `$`
(without re.M) matches at the end of the string or just before a single
final newline.  Because group 3 cannot contain a newline, a final
newline is never part of any group: the engine matches the groups
against the input with one trailing newline stripped.  The shortest
group 1 is then obtained by taking the maximal word run at the end of
the stripped input as group 3, and taking the dot branch exactly when
the character just before that run is a dot. -/

/-- The portion of the input the groups of the source regex cover: the
input with a single final newline (if any) removed, since `$` may match
just before it and group 3 cannot cross it. -/
def stripNL (s : List Char) : List Char :=
  if s.getLast? = some '\n' then s.dropLast else s

/-- Source `_get_completion_parts`: returns `(path, dot, like)` exactly as the
source regex groups them. -/
def get_completion_parts (s : List Char) : List Char × List Char × List Char :=
  let s2 := stripNL s
  let like := (s2.reverse.takeWhile isWordChar).reverse
  let rest := (s2.reverse.dropWhile isWordChar).reverse
  if rest.getLast? = some '.' then (rest.dropLast, ['.'], like) else (rest, [], like)

example : get_completion_parts "a.b.c".data = ("a.b".data, ['.'], ['c']) := by decide
example : get_completion_parts "abc".data = ([], [], "abc".data) := by decide
example : get_completion_parts "foo.".data = ("foo".data, ['.'], []) := by decide
example : get_completion_parts "a\n".data = ([], [], ['a']) := by decide
example : get_completion_parts "a\nb".data = ("a\n".data, [], ['b']) := by decide
example : get_completion_parts [] = ([], [], []) := by decide

/-! ## Resolved entities and named bindings

Modelled from the spec: the syntax-tree / evaluator value world
(`parsing.Import`, `parsing.Module`, `parsing.Function`,
`imports.ImportPath`, plain statements, and `parsing.Name`) is not part
of the analysed source.  Each entity carries the collaborator answers
the core consumes: `get_defined_names()` as a `defined` field, and
`ImportPath(...).follow()` as a `followed` field.  A `parsing.Import`
carries its `start_pos` line (`none` models Python `None`; the source
tests it with truthiness, so `0` is also "virtual"). -/

mutual

/-- Modelled from the spec: a resolved entity ("scope"): an import
resolver handle (`imports.ImportPath`), an import statement
(`parsing.Import`), a module, a callable, or any other statement-like
entity. -/
inductive Entity where
  | importPath (followed : List Entity) (defined : List NameB) : Entity
  | imp (startLine : Option Nat) (followed : List Entity) (defined : List NameB) : Entity
  | module (id : Nat) (defined : List NameB) : Entity
  | func (id : Nat) (defined : List NameB) : Entity
  | other (id : Nat) (defined : List NameB) : Entity

/-- Modelled from the spec: a named binding (`parsing.Name`): its dotted
segments (`names`) and its owning entity (`parent()`). -/
inductive NameB where
  | mk (names : List (List Char)) (par : Entity) : NameB

end

/-- Collaborator operation `get_defined_names()` of an entity. -/
def get_defined_names : Entity → List NameB
  | Entity.importPath _ d => d
  | Entity.imp _ _ d => d
  | Entity.module _ d => d
  | Entity.func _ d => d
  | Entity.other _ d => d

/-- Test `isinstance(s, evaluate.Function)` for the completion filter. -/
def isFunction : Entity → Bool
  | Entity.func _ _ => true
  | _ => false

/-- Test `isinstance(s, imports.ImportPath)`. -/
def isImportPath : Entity → Bool
  | Entity.importPath _ _ => true
  | _ => false

/-- Modelled from the spec: `module.get_module_name(names)` — the
module's binding for the same dotted suffix. -/
def get_module_name (m : Entity) (names : List (List Char)) : NameB :=
  NameB.mk names m

/-- Accessor `name.names[-1]`: the final identifier segment of a binding (parser
invariant: `names` is nonempty; the default is never reached). -/
def lastName : NameB → List Char
  | NameB.mk names _ => names.getLastD []

/-- Truthiness of `par.start_pos[0]` being false (`None` or `0`):
the "virtual import" test of `remove_unreal_imports`. -/
def falsyLine : Option Nat → Bool
  | none => true
  | some n => n == 0

mutual

/-- Structural equality on entities, the model of Python `set()`
identity-deduplication for the value world (spec invariant (c):
results are deduplicated by identity of the adapted value). -/
def entityBeq : Entity → Entity → Bool
  | Entity.importPath f d, Entity.importPath f2 d2 =>
      entityListBeq f f2 && nameListBeq d d2
  | Entity.imp s f d, Entity.imp s2 f2 d2 =>
      s == s2 && entityListBeq f f2 && nameListBeq d d2
  | Entity.module i d, Entity.module i2 d2 => i == i2 && nameListBeq d d2
  | Entity.func i d, Entity.func i2 d2 => i == i2 && nameListBeq d d2
  | Entity.other i d, Entity.other i2 d2 => i == i2 && nameListBeq d d2
  | _, _ => false
termination_by structural e => e

def entityListBeq : List Entity → List Entity → Bool
  | [], [] => true
  | a :: as, b :: bs => entityBeq a b && entityListBeq as bs
  | _, _ => false
termination_by structural l => l

def nameBeq : NameB → NameB → Bool
  | NameB.mk n p, NameB.mk n2 p2 => n == n2 && entityBeq p p2
termination_by structural n => n

def nameListBeq : List NameB → List NameB → Bool
  | [], [] => true
  | a :: as, b :: bs => nameBeq a b && nameListBeq as bs
  | _, _ => false
termination_by structural l => l

end

/-! ## Virtual-import flattening (`remove_unreal_imports` inside `goto`) -/

mutual

/-- Source `remove_unreal_imports(names)`: each binding whose owner is a
virtual import (an `Import` with falsy start position) is replaced by
the flattening of its import group; every other binding is kept. -/
def flattenNames : List NameB → List NameB
  | [] => []
  | n :: ns => flattenOne n ++ flattenNames ns

/-- One binding of `remove_unreal_imports`'s loop. -/
def flattenOne : NameB → List NameB
  | NameB.mk nms (Entity.imp st f d) =>
      if falsyLine st then flattenGroup nms false f
      else [NameB.mk nms (Entity.imp st f d)]
  | n => [n]

/-- The inner loop over `imports.ImportPath(par).follow()`: imports are
recursively flattened, only the first module contributes the binding
for the dotted suffix (`module_count` is the boolean flag `taken`),
everything else is dropped. -/
def flattenGroup (nms : List (List Char)) : Bool → List Entity → List NameB
  | _, [] => []
  | taken, e :: es =>
      match e with
      | Entity.imp _ _ d =>
          flattenNames d ++ flattenGroup nms taken es
      | Entity.module i d =>
          if taken then flattenGroup nms taken es
          else get_module_name (Entity.module i d) nms :: flattenGroup nms true es
      | _ => flattenGroup nms taken es

end

/-! ## Request environment, cache, and errors -/

/-- The process-wide evaluator cache (`evaluate.clear_caches()` resets
it to `[]`); entries are abstract. -/
abbrev Cache := List Nat

/-- Exceptions that can cross the API boundary: the exported
`NotFoundError`, and Python `IndexError` (from `s.follow()[0]` on an
empty follow result in `goto`). -/
inductive Err where
  | notFound
  | indexError
deriving DecidableEq

/-- Kind of `module.parser.user_stmt`: an import statement or any other
statement (`none` at the use sites models no enclosing statement). -/
inductive UserStmtKind where
  | importStmt
  | other

/-- Modelled from the spec: the per-request answers of the collaborators
(`modules.ModuleWithCursor`, the parser, `evaluate`, `imports`) that
`functions.py` consumes.

* `path_until_cursor` / `path_under_cursor`: the cursor module's
  extracted access paths for this request.
* `user_stmt`: the kind of the enclosing statement, if any.
* `importPathOf b`: the `imports.ImportPath(user_stmt, b)` handle when
  the enclosing statement is an import (`b` is `is_like_search`).
* `follow p`: parsing `p` as one isolated statement and following it
  with the evaluator; `none` models the parse yielding zero statements
  (the `IndexError` → `NotFoundError` branch of `_prepare_goto`).
* `followDelta p`: the entries `evaluate.follow_statement` adds to the
  process-wide cache while following `p`.
* `user_scope_names`: the flattened `evaluate.get_names_for_scope`
  enumeration used by `complete`'s fallback.
* `statement_path`: the global `evaluate.statement_path` after the
  follow (consulted by `goto`'s bare-identifier branch). -/
structure Env where
  path_until_cursor : List Char
  path_under_cursor : List Char
  user_stmt : Option UserStmtKind
  importPathOf : Bool → Entity
  follow : List Char → Option (List Entity)
  followDelta : List Char → Cache
  user_scope_names : List NameB
  statement_path : List Entity

/-! ## Deduplication (Python `set()` over result values) -/

/-- Keep-first deduplication with an explicit equality test; `seen`
accumulates representatives already emitted. -/
def dedupAux (eq : α → α → Bool) (seen : List α) : List α → List α
  | [] => []
  | x :: xs =>
      if seen.any (fun y => eq y x) then dedupAux eq seen xs
      else x :: dedupAux eq (x :: seen) xs

/-- Model of `set(l)` (iteration order normalized to first occurrence;
no claim depends on the order). -/
def dedupBy (eq : α → α → Bool) (l : List α) : List α := dedupAux eq [] l

/-! ## Result adapters -/

/-- The `Completion` value object: the binding, the `needs_dot` flag
(stored truthiness of `not dot and path`) and `len(like)`. -/
structure Completion where
  name : NameB
  needs_dot : Bool
  like_name_length : Nat

/-- What a `Definition` wraps: a named binding (`goto`'s dotted branch)
or a resolved entity (`goto`'s bare branch and `get_definitions`). -/
inductive Target where
  | name (n : NameB) : Target
  | entity (e : Entity) : Target

/-- Equality on definition targets, for the `set(definitions)` step. -/
def targetBeq : Target → Target → Bool
  | Target.name a, Target.name b => nameBeq a b
  | Target.entity a, Target.entity b => entityBeq a b
  | _, _ => false

/-- The `Definition` value object returned by `goto`/`get_definitions`. -/
structure Definition where
  target : Target

/-- Source step `[Definition(d) for d in set(definitions)]`. -/
def finalizeDefs (ts : List Target) : List Definition :=
  (dedupBy targetBeq ts).map Definition.mk

/-! ## `_prepare_goto` -/

/-- The non-import branch of `_prepare_goto`: parse `goto_path` as one
isolated statement (raising `NotFoundError` if the parse yields no
statement), bind it to the cursor, and follow it with the evaluator
(which extends the process-wide cache). -/
def parseAndFollow (env : Env) (goto_path : List Char) (cache : Cache) :
    Except Err (List Entity) × Cache :=
  match env.follow goto_path with
  | none => (Except.error Err.notFound, cache)
  | some scopes => (Except.ok scopes, cache ++ env.followDelta goto_path)

/-- Source `_prepare_goto(source, position, source_path, module, goto_path,
is_like_search)`: early empty return for an undefined enclosing
statement with a multi-line path, delegation to the import resolver
for import statements, isolated parse-and-follow otherwise. -/
def prepare_goto (env : Env) (goto_path : List Char) (is_like_search : Bool)
    (cache : Cache) : Except Err (List Entity) × Cache :=
  match env.user_stmt with
  | none =>
      if goto_path.contains '\n' then (Except.ok [], cache)
      else parseAndFollow env goto_path cache
  | some UserStmtKind.importStmt =>
      (Except.ok [env.importPathOf is_like_search], cache)
  | some UserStmtKind.other => parseAndFollow env goto_path cache

/-! ## `complete` -/

/-- The candidate pool of `complete`: on `NotFoundError` the names
visible up the enclosing scope chain, otherwise the defined names of
every resolved scope that is not a callable. -/
def completePool (env : Env) (cache : Cache) : List NameB :=
  match (prepare_goto env (get_completion_parts env.path_until_cursor).1 true cache).1 with
  | Except.error _ => env.user_scope_names
  | Except.ok scopes =>
      (scopes.filter (fun s => !(isFunction s))).flatMap get_defined_names

/-- Source `complete(source, line, column, source_path)`: split the
left-of-cursor path, gather candidates, filter by case-insensitive
prefix on the final segment, deduplicate, wrap, clear the cache. -/
def complete (env : Env) (cache : Cache) : List Completion × Cache :=
  let parts := get_completion_parts env.path_until_cursor
  let filtered := (completePool env cache).filter
      (fun c => (lowerStr parts.2.2).isPrefixOf (lowerStr (lastName c)))
  ((dedupBy nameBeq filtered).map
      (fun c => Completion.mk c (parts.2.1.isEmpty && !parts.1.isEmpty) parts.2.2.length),
   [])

/-! ## `get_definitions` -/

/-- Source `get_definitions(source, line, column, source_path)`: one resolver
call on the under-cursor path; a raised `NotFoundError` propagates (and
skips the cache clear). -/
def get_definitions (env : Env) (cache : Cache) :
    Except Err (List Definition) × Cache :=
  match prepare_goto env env.path_under_cursor false cache with
  | (Except.error e, c1) => (Except.error e, c1)
  | (Except.ok scopes, _) =>
      (Except.ok (finalizeDefs (scopes.map Target.entity)), [])

/-! ## `goto` -/

/-- The bare-identifier loop of `goto`: each `ImportPath` scope is
replaced by the first entity its follow yields (Python raises
`IndexError` when the follow result is empty), other scopes are kept. -/
def followFirst : Entity → Except Err Entity
  | Entity.importPath f _ =>
      match f with
      | [] => Except.error Err.indexError
      | e :: _ => Except.ok e
  | e => Except.ok e

/-- The dotted branch of `goto`: collect every defined name of every
scope, flatten virtual imports, keep exact final-segment matches. -/
def gotoDotTargets (scopes : List Entity) (search : List Char) : List Target :=
  ((flattenNames (scopes.flatMap get_defined_names)).filter
      (fun n => lastName n == search)).map Target.name

/-- Source `goto(source, line, column, source_path)`: split the under-cursor
path; a bare identifier prefers `evaluate.statement_path[1]`, else
follows import scopes; a dotted path flattens and exact-matches; then
deduplicate, adapt, clear caches.  Raised exceptions propagate with the
cache as it was. -/
def goto (env : Env) (cache : Cache) : Except Err (List Definition) × Cache :=
  let parts := get_completion_parts env.path_under_cursor
  let goto_path := if parts.2.1.isEmpty then parts.2.2 else parts.1
  match prepare_goto env goto_path false cache with
  | (Except.error e, c1) => (Except.error e, c1)
  | (Except.ok scopes, c1) =>
      if parts.2.1.isEmpty then
        match env.statement_path.get? 1 with
        | some d => (Except.ok (finalizeDefs [Target.entity d]), [])
        | none =>
            match scopes.mapM followFirst with
            | Except.error e => (Except.error e, c1)
            | Except.ok fs =>
                (Except.ok (finalizeDefs (fs.map Target.entity)), [])
      else
        (Except.ok (finalizeDefs (gotoDotTargets scopes parts.2.2)), [])

/-! ## The `Definition` adapter's derived attributes

Modelled from the spec: `Definition.__init__` walks `parent()` links to
the root entity and keeps `str(par.path)`; entities without an on-disk
source have `path = None` (so the stored module path is the text
`"None"`) and no recorded start position.  `DefinitionView` carries the
two results of that walk that the attribute claims depend on. -/

structure DefinitionView where
  rootPath : Option (List Char)
  startLine : Option Nat

/-- Derivation `self.module_path = str(par.path)` at the root of the parent walk
(Python `str(None)` is the text `"None"`). -/
def module_path (d : DefinitionView) : List Char :=
  match d.rootPath with
  | none => "None".data
  | some p => p

/-- Source `Definition.in_builtin_module`: `not self.module_path.endswith('.py')`. -/
def in_builtin_module (d : DefinitionView) : Bool :=
  !(".py".data.isSuffixOf (module_path d))

/-- Source `Definition.line_nr`: `self.definition.start_pos[0]`. -/
def line_nr (d : DefinitionView) : Option Nat := d.startLine

/-! ## Helper lemmas -/

theorem dedupAux_subset {α : Type} (eq : α → α → Bool) (seen l : List α) :
    ∀ x ∈ dedupAux eq seen l, x ∈ l := by
  induction l generalizing seen with
  | nil => simp [dedupAux]
  | cons a as ih =>
    intro x hx
    rw [dedupAux] at hx
    by_cases h : (seen.any (fun y => eq y a)) = true
    · simp only [h, if_true] at hx
      exact List.mem_cons_of_mem _ (ih seen x hx)
    · simp only [h, if_false] at hx
      rcases List.mem_cons.mp hx with rfl | hx
      · exact List.mem_cons_self _ _
      · exact List.mem_cons_of_mem _ (ih _ x hx)

theorem dedupBy_subset {α : Type} (eq : α → α → Bool) (l : List α) :
    ∀ x ∈ dedupBy eq l, x ∈ l :=
  dedupAux_subset eq [] l

theorem dropWhile_head_not {α : Type} (p : α → Bool) (l : List α) :
    ∀ a, (l.dropWhile p).head? = some a → p a = false := by
  induction l with
  | nil => intro a h; simp [List.dropWhile] at h
  | cons x xs ih =>
    intro a h
    rw [List.dropWhile_cons] at h
    by_cases hx : p x = true
    · rw [if_pos hx] at h
      exact ih a h
    · rw [if_neg hx] at h
      simp only [List.head?_cons, Option.some.injEq] at h
      subst h
      exact Bool.eq_false_iff.mpr hx

theorem rest_append_like (s2 : List Char) :
    (s2.reverse.dropWhile isWordChar).reverse ++
      (s2.reverse.takeWhile isWordChar).reverse = s2 := by
  calc (s2.reverse.dropWhile isWordChar).reverse ++
        (s2.reverse.takeWhile isWordChar).reverse
      = (s2.reverse.takeWhile isWordChar ++ s2.reverse.dropWhile isWordChar).reverse := by
        rw [List.reverse_append]
    _ = s2.reverse.reverse := by rw [List.takeWhile_append_dropWhile]
    _ = s2 := List.reverse_reverse s2

/-! ## Claim C8: the path splitter -/

/-- C8 (counterexample): the splitter's triple does not always
concatenate back to the input — on `"a\n"` the regex's `$` matches
before the trailing newline, which is then part of no group, so the
triple is `("", "", "a")` and its concatenation is `"a"`, not `"a\n"`. -/
theorem c8_splitter_counterexample :
    get_completion_parts ['a', '\n'] = ([], [], ['a']) ∧
    ¬ ((get_completion_parts ['a', '\n']).1 ++ (get_completion_parts ['a', '\n']).2.1 ++
        (get_completion_parts ['a', '\n']).2.2 = ['a', '\n']) := by
  constructor
  · decide
  · decide

/-- C8 (amended): for every input the splitter totally returns
`(path, dot, like)` such that (a) the concatenation equals the input
with a single trailing newline, if any, removed; (b) `like` is a run of
word characters; (c) `dot` is `""` or `"."`; (d) `like` is maximal —
the character of the stripped input immediately before `like` (the last
character of `path ++ dot`) is not a word character; and (e) when `dot`
is absent, `path` does not end in a dot. -/
theorem c8_splitter_amended (s : List Char) :
    (get_completion_parts s).1 ++ (get_completion_parts s).2.1 ++
        (get_completion_parts s).2.2 = stripNL s ∧
    (get_completion_parts s).2.2.all isWordChar = true ∧
    ((get_completion_parts s).2.1 = [] ∨ (get_completion_parts s).2.1 = ['.']) ∧
    isWordChar (((get_completion_parts s).1 ++ (get_completion_parts s).2.1).getLastD '.')
        = false ∧
    ((get_completion_parts s).2.1.isEmpty &&
        ((get_completion_parts s).1.getLastD ' ' == '.')) = false := by
  have hlike : ∀ x ∈ ((stripNL s).reverse.takeWhile isWordChar).reverse, isWordChar x = true := by
    intro x hx
    exact List.mem_takeWhile_imp (List.mem_reverse.mp hx)
  have hsplit := rest_append_like (stripNL s)
  have hlast :
      ∀ a, ((stripNL s).reverse.dropWhile isWordChar).reverse.getLast? = some a →
        isWordChar a = false := by
    intro a ha
    rw [List.getLast?_reverse] at ha
    exact dropWhile_head_not isWordChar _ a ha
  simp only [get_completion_parts]
  by_cases hd :
      ((stripNL s).reverse.dropWhile isWordChar).reverse.getLast? = some '.'
  · rw [if_pos hd]
    obtain ⟨ys, hys⟩ := List.getLast?_eq_some_iff.mp hd
    rw [hys] at hsplit ⊢
    refine ⟨?_, ?_, ?_, ?_, ?_⟩
    · rw [List.dropLast_concat]
      exact hsplit
    · rw [List.all_eq_true]; exact hlike
    · right; rfl
    · rw [List.dropLast_concat, List.getLastD_concat]
      decide
    · simp
  · rw [if_neg hd]
    refine ⟨?_, ?_, ?_, ?_, ?_⟩
    · simpa using hsplit
    · rw [List.all_eq_true]; exact hlike
    · left; rfl
    · rw [List.append_nil, List.getLastD_eq_getLast?]
      cases hl : ((stripNL s).reverse.dropWhile isWordChar).reverse.getLast? with
      | none => decide
      | some a =>
        simp only [Option.getD_some]
        exact hlast a hl
    · simp only [List.isEmpty_nil, Bool.true_and]
      rw [List.getLastD_eq_getLast?]
      cases hl : ((stripNL s).reverse.dropWhile isWordChar).reverse.getLast? with
      | none => decide
      | some a =>
        simp only [Option.getD_some]
        by_contra hc
        simp only [Bool.not_eq_false, beq_iff_eq] at hc
        subst hc
        exact hd hl

/-! ## Concrete request environments -/

/-- A minimal request environment; concrete instances below override
individual fields. -/
def baseEnv : Env where
  path_until_cursor := []
  path_under_cursor := []
  user_stmt := some UserStmtKind.other
  importPathOf := fun _ => Entity.other 0 []
  follow := fun _ => none
  followDelta := fun _ => []
  user_scope_names := []
  statement_path := []

/-- Shared fact: with no enclosing statement and a multi-line path,
`_prepare_goto` returns the empty scope list and leaves the cache
untouched (lines 213-217 of the source). -/
theorem prepare_goto_empty_of_multiline (env : Env) (path : List Char)
    (l : Bool) (cache : Cache) (h : env.user_stmt = none)
    (hml : path.contains '\n' = true) :
    prepare_goto env path l cache = (Except.ok [], cache) := by
  simp only [prepare_goto, h, hml, if_true]

/-! ## Claim C3: the multi-line / no-statement branch of `_prepare_goto` -/

/-- C3 (counterexample): with an undefined enclosing statement and a
multi-line requested path, `_prepare_goto` does not signal `NotFound`;
it returns the empty scope list. -/
theorem c3_notfound_counterexample :
    prepare_goto { baseEnv with user_stmt := none } ['a', '\n', 'b'] false [] =
      (Except.ok [], []) ∧
    (prepare_goto { baseEnv with user_stmt := none } ['a', '\n', 'b'] false []).1 ≠
      Except.error Err.notFound := by
  refine ⟨rfl, ?_⟩
  intro h
  exact Except.noConfusion h

/-- C3 (amended): when the enclosing statement is undefined and the
requested path spans multiple lines, the Scope Resolver returns an
empty entity set without signaling `NotFound` (the `NotFound` signal is
reserved for the isolated re-parse yielding no statements). -/
theorem c3_resolver_amended (env : Env) (path : List Char) (l : Bool)
    (cache : Cache) (h : env.user_stmt = none)
    (hml : path.contains '\n' = true) :
    prepare_goto env path l cache = (Except.ok [], cache) :=
  prepare_goto_empty_of_multiline env path l cache h hml

/-- Witness for the amended C3 at a concrete input. -/
theorem c3_resolver_amended_witness :
    ({ baseEnv with user_stmt := none } : Env).user_stmt = none ∧
    (['a', '\n'].contains '\n' = true) ∧
    prepare_goto { baseEnv with user_stmt := none } ['a', '\n'] true [] =
      (Except.ok [], []) :=
  ⟨rfl, by decide,
   c3_resolver_amended { baseEnv with user_stmt := none } ['a', '\n'] true []
     rfl (by decide)⟩

/-! ## Claim C10: `complete` on the empty-return resolver branch -/

/-- C10: when the enclosing statement is undefined and the leading path
handed to the resolver spans multiple lines, the resolver returns the
empty entity set without signaling `NotFound`, so `complete` skips the
full-scope-enumeration fallback entirely (whatever names it would
enumerate) and returns the empty list. -/
theorem c10_complete_skip_fallback (env : Env) (cache : Cache)
    (h : env.user_stmt = none)
    (hml : (get_completion_parts env.path_until_cursor).1.contains '\n' = true) :
    (prepare_goto env (get_completion_parts env.path_until_cursor).1 true cache).1 =
      Except.ok [] ∧
    (complete env cache).1 = [] := by
  have hpg := prepare_goto_empty_of_multiline env
      (get_completion_parts env.path_until_cursor).1 true cache h hml
  have hpool : completePool env cache = [] := by
    simp only [completePool, hpg, List.filter_nil, List.flatMap_nil]
  refine ⟨by rw [hpg], ?_⟩
  simp only [complete, hpool, List.filter_nil, dedupBy, dedupAux, List.map_nil]

/-- Concrete C10 request: no enclosing statement, multi-line base path
`"a\nb"`, and a nonempty fallback pool that matches the partial `"c"`. -/
def envC10 : Env := { baseEnv with
    user_stmt := none,
    path_until_cursor := "a\nb.c".data,
    user_scope_names := [NameB.mk [['c']] (Entity.module 0 [])] }

/-- Witness for C10 at a concrete request (the fallback pool is
nonempty, yet `complete` returns no candidates). -/
theorem c10_complete_skip_fallback_witness :
    envC10.user_stmt = none ∧
    (get_completion_parts envC10.path_until_cursor).1.contains '\n' = true ∧
    (complete envC10 []).1 = [] :=
  ⟨rfl, by decide, (c10_complete_skip_fallback envC10 [] rfl (by decide)).2⟩

/-! ## Claim C4: the completion prefix filter -/

/-- C4: every completion returned by `complete` names a binding whose
final identifier segment, lowercased, starts with the extracted partial
identifier, lowercased. -/
theorem c4_prefix_filter (env : Env) (cache : Cache) :
    ((complete env cache).1.all (fun c =>
        (lowerStr (get_completion_parts env.path_until_cursor).2.2).isPrefixOf
          (lowerStr (lastName c.name)))) = true := by
  rw [List.all_eq_true]
  intro c hc
  simp only [complete] at hc
  obtain ⟨a, ha, rfl⟩ := List.mem_map.mp hc
  have ha2 := dedupBy_subset _ _ _ ha
  simpa using List.of_mem_filter ha2

/-! ## Claim C5: the `needs_dot` flag -/

/-- C5: every completion returned by `complete` carries
`needs_dot = true` exactly when the dot was absent from the extracted
path and the base path is non-empty; in particular a path ending in a
dot yields `needs_dot = false`, as does an empty base path. -/
theorem c5_needs_dot (env : Env) (cache : Cache) :
    ((complete env cache).1.all (fun c =>
        c.needs_dot == ((get_completion_parts env.path_until_cursor).2.1.isEmpty &&
          !(get_completion_parts env.path_until_cursor).1.isEmpty))) = true := by
  rw [List.all_eq_true]
  intro c hc
  simp only [complete] at hc
  obtain ⟨a, ha, rfl⟩ := List.mem_map.mp hc
  simp

/-! ## Claim C6: `goto`'s exact match on dotted paths -/

/-- C6: when the extracted under-cursor path contains a dot, every
`Definition` returned by `goto` wraps a binding whose final identifier
segment is exactly (case-sensitively) equal to the extracted search
name; no entity-wrapping or differently-named result is returned. -/
theorem c6_goto_exact_match (env : Env) (cache : Cache)
    (hdot : (get_completion_parts env.path_under_cursor).2.1 ≠ [])
    (r : List Definition) (c2 : Cache)
    (h : goto env cache = (Except.ok r, c2)) :
    (r.all (fun d => match d.target with
        | Target.name n =>
            lastName n == (get_completion_parts env.path_under_cursor).2.2
        | Target.entity _ => false)) = true := by
  have hie : (get_completion_parts env.path_under_cursor).2.1.isEmpty = false := by
    cases hh : (get_completion_parts env.path_under_cursor).2.1 with
    | nil => exact absurd hh hdot
    | cons x xs => rfl
  simp only [goto, hie, Bool.false_eq_true, if_false] at h
  rcases hpre : prepare_goto env (get_completion_parts env.path_under_cursor).1
      false cache with ⟨res, c1⟩
  rw [hpre] at h
  cases res with
  | error e => simp at h
  | ok scopes =>
    simp only [Prod.mk.injEq, Except.ok.injEq] at h
    obtain ⟨h1, h2⟩ := h
    subst h1
    rw [List.all_eq_true]
    intro d hd
    simp only [finalizeDefs] at hd
    obtain ⟨t, ht, rfl⟩ := List.mem_map.mp hd
    have ht2 := dedupBy_subset _ _ _ ht
    simp only [gotoDotTargets] at ht2
    obtain ⟨n, hn, rfl⟩ := List.mem_map.mp ht2
    simpa using List.of_mem_filter hn

/-- Concrete C6 request: under-cursor path `"m.foo"`; resolving the base
`"m"` yields one scope defining the binding `foo`. -/
def envC6 : Env := { baseEnv with
    path_under_cursor := "m.foo".data,
    follow := fun p =>
      if p = ['m'] then
        some [Entity.other 1 [NameB.mk ["foo".data] (Entity.module 2 [])]]
      else none }

/-- The definitions `goto` returns for `envC6`. -/
def c6res : List Definition :=
  [Definition.mk (Target.name (NameB.mk ["foo".data] (Entity.module 2 [])))]

/-- Witness for C6 at the concrete request. -/
theorem c6_goto_exact_match_witness :
    (get_completion_parts envC6.path_under_cursor).2.1 ≠ [] ∧
    (c6res.all (fun d => match d.target with
        | Target.name n =>
            lastName n == (get_completion_parts envC6.path_under_cursor).2.2
        | Target.entity _ => false)) = true :=
  ⟨by decide, c6_goto_exact_match envC6 [] (by decide) c6res [] rfl⟩

/-! ## Claim C7: virtual-import flattening -/

/-- Entities of the concrete C7 request: one virtual (position-less)
multi-line import whose group contains an import scope (itself holding a
binding owned by a second virtual import — a star-import chain of
depth 2) and two modules; the import introduces `a` twice and `b`
once. -/
def c7m3 : Entity := Entity.module 3 []

def c7vimpInner : Entity := Entity.imp none [c7m3] []

def c7nc : NameB := NameB.mk [['c']] c7vimpInner

def c7impScope : Entity := Entity.imp (some 5) [] [c7nc]

def c7m1 : Entity := Entity.module 1 []

def c7m2 : Entity := Entity.module 2 []

def c7vimp : Entity := Entity.imp none [c7impScope, c7m1, c7m2] []

/-- Concrete C7 request: under-cursor path `"x.a"`; the base `"x"`
resolves to one scope whose defined names are the virtual bindings
`a`, `a`, `b` of the multi-line import. -/
def envC7 : Env := { baseEnv with
    path_under_cursor := "x.a".data,
    follow := fun p =>
      if p = ['x'] then
        some [Entity.other 7
          [NameB.mk [['a']] c7vimp, NameB.mk [['a']] c7vimp, NameB.mk [['b']] c7vimp]]
      else none }

/-- C7: during `goto`'s flattening of virtual import groups, (1) any
scope in the group that is an import is expanded by recursively flattening its
defined names; (2) the first module in the group contributes exactly
the module's binding for the dotted suffix and flips the taken flag;
(3) once the flag is set, every subsequent module in the group is
ignored (only imports keep contributing); and (4) the flattening
being a total function terminates, so a `goto` query for a name
introduced twice by one multi-line import — with a star-import chain
of depth 2 inside the group — returns exactly one `Definition`. -/
theorem c7_virtual_import_flattening :
    (∀ (st : Option Nat) (f : List Entity) (d : List NameB) (es : List Entity)
        (nms : List (List Char)) (taken : Bool),
      flattenGroup nms taken (Entity.imp st f d :: es) =
        flattenNames d ++ flattenGroup nms taken es) ∧
    (∀ (i : Nat) (d : List NameB) (es : List Entity) (nms : List (List Char)),
      flattenGroup nms false (Entity.module i d :: es) =
        get_module_name (Entity.module i d) nms :: flattenGroup nms true es) ∧
    (∀ (es : List Entity) (nms : List (List Char)),
      flattenGroup nms true es = es.flatMap (fun e =>
        match e with
        | Entity.imp _ _ d => flattenNames d
        | _ => [])) ∧
    (goto envC7 []).1 =
      Except.ok [Definition.mk (Target.name (NameB.mk [['a']] c7m1))] := by
  refine ⟨?_, ?_, ?_, ?_⟩
  · intro st f d es nms taken
    rfl
  · intro i d es nms
    rfl
  · intro es nms
    induction es with
    | nil => rfl
    | cons e es ih =>
      cases e with
      | importPath f d => simpa [flattenGroup] using ih
      | imp st f d => simpa [flattenGroup] using ih
      | module i d => simpa [flattenGroup] using ih
      | func i d => simpa [flattenGroup] using ih
      | other i d => simpa [flattenGroup] using ih
  · rfl

/-! ## Claim C1: totality of the public operations -/

/-- C1 (counterexample): `goto` and `get_definitions` can raise
`NotFoundError` past the API boundary (the exception is even exported):
with a cursor on no identifiable expression the extracted path is
empty, the isolated parse yields no statement, `_prepare_goto` raises,
and neither operation catches it. -/
theorem c1_totality_counterexample :
    (get_definitions baseEnv []).1 = Except.error Err.notFound ∧
    (goto baseEnv []).1 = Except.error Err.notFound :=
  ⟨rfl, rfl⟩

/-- C1 (amended): `complete` never raises (`NotFoundError` is caught
and answered from the fallback enumeration), but `goto` and
`get_definitions` are not total: whenever the isolated parse of the
requested path yields no statements, the `NotFoundError` raised by
`_prepare_goto` propagates to the caller. -/
theorem c1_totality_amended (env : Env) (cache : Cache)
    (h : env.user_stmt = some UserStmtKind.other)
    (hf : env.follow env.path_under_cursor = none) :
    (get_definitions env cache).1 = Except.error Err.notFound := by
  simp only [get_definitions, prepare_goto, parseAndFollow, h, hf]

/-- Witness for the amended C1 at a concrete request. -/
theorem c1_totality_amended_witness :
    baseEnv.user_stmt = some UserStmtKind.other ∧
    baseEnv.follow baseEnv.path_under_cursor = none ∧
    (get_definitions baseEnv []).1 = Except.error Err.notFound :=
  ⟨rfl, rfl, c1_totality_amended baseEnv [] rfl rfl⟩

/-! ## Claim C2: the cache-clearing discipline -/

/-- Concrete C2 request: the bare identifier `x` resolves (populating
the evaluator cache with one entry), `evaluate.statement_path` offers
no one-hop shortcut, and the single resolved scope is an `ImportPath`
whose follow result is empty — so `s.follow()[0]` raises `IndexError`
after the cache was populated. -/
def envC2 : Env := { baseEnv with
    path_under_cursor := ['x'],
    follow := fun p => if p = ['x'] then some [Entity.importPath [] []] else none,
    followDelta := fun p => if p = ['x'] then [5] else [] }

/-- C2 (counterexample): a `goto` call entered with the empty (initial)
cache exits on the `IndexError` path with the cache still holding the
entry the evaluator added — the shared cache is not cleared on every
exit path. -/
theorem c2_cache_counterexample :
    (goto envC2 []).1 = Except.error Err.indexError ∧
    (goto envC2 []).2 = [5] ∧ ([5] : Cache) ≠ ([] : Cache) :=
  ⟨rfl, rfl, by decide⟩

/-- C2 (amended): the process-wide cache is cleared on every normal
return of the three operations (`complete` clears on both of its
branches, including the fallback), but an exceptional exit of `goto` or
`get_definitions` skips the clear and leaves the cache as it stood when
the exception was raised. -/
theorem c2_cache_amended (env : Env) (cache : Cache) :
    (complete env cache).2 = [] ∧
    ((∃ e, (get_definitions env cache).1 = Except.error e) ∨
      (get_definitions env cache).2 = []) ∧
    ((∃ e, (goto env cache).1 = Except.error e) ∨ (goto env cache).2 = []) := by
  refine ⟨rfl, ?_, ?_⟩
  · rcases hg : get_definitions env cache with ⟨gres, gcache⟩
    simp only [get_definitions] at hg
    split at hg
    · injection hg with h1 h2
      subst h1
      exact Or.inl ⟨_, rfl⟩
    · injection hg with h1 h2
      subst h2
      exact Or.inr rfl
  · rcases hg : goto env cache with ⟨gres, gcache⟩
    simp only [goto] at hg
    split at hg
    · injection hg with h1 h2
      subst h1
      exact Or.inl ⟨_, rfl⟩
    · split at hg
      · split at hg
        · injection hg with h1 h2
          subst h2
          exact Or.inr rfl
        · split at hg
          · injection hg with h1 h2
            subst h1
            exact Or.inl ⟨_, rfl⟩
          · injection hg with h1 h2
            subst h2
            exact Or.inr rfl
      · injection hg with h1 h2
        subst h2
        exact Or.inr rfl

/-! ## Claim C9: builtin detection in the `Definition` adapter -/

/-- C9: `in_builtin_module()` is true exactly when the derived module
path does not end in the source-file extension `".py"`; in particular a
Definition whose owning module has no on-disk source path (so the
stored module path is the text `"None"`) reports
`in_builtin_module() = true`, and one with no recorded start position
has an absent line number. -/
theorem c9_builtin_detection :
    (∀ d : DefinitionView,
      in_builtin_module d = true ↔ ¬ (".py".data.isSuffixOf (module_path d) = true)) ∧
    (∀ sl : Option Nat, in_builtin_module ⟨none, sl⟩ = true) ∧
    line_nr ⟨none, none⟩ = none := by
  refine ⟨?_, ?_, rfl⟩
  · intro d
    cases hx : ".py".data.isSuffixOf (module_path d) with
    | false => simp [in_builtin_module, hx]
    | true => simp [in_builtin_module, hx]
  · intro sl
    rfl

end Jedi
